import Mathlib

/-!
Verification of the stake instruction module of the fluentlabs-xyz/solana
repository (programs/stake_api/src/stake_instruction.rs): the instruction
type and its bincode wire encoding, the instruction builders, and the
structural checks of the dispatcher process_instruction.

Machine integers are modelled as Nat (with explicit bounds where overflow
matters) and i64 as Int in two's-complement range.  Types that live outside
the given sources (the SDK account/instruction types and the stake state
machine) are modelled from the spec and marked as such.
-/

namespace StakeApi

/-! ## Little-endian byte strings (the fixed-size integer encoding of bincode) -/

/-- Little-endian byte string of width w for the natural number n
(truncating above 256 ^ w), as bincode fixint encoding writes it. -/
def toLEBytes : Nat → Nat → List Nat
  | 0, _ => []
  | w + 1, n => n % 256 :: toLEBytes w (n / 256)

/-- Natural number denoted by a little-endian byte string. -/
def fromLEBytes : List Nat → Nat
  | [] => 0
  | b :: bs => b + 256 * fromLEBytes bs

/-- Reader of a w-byte little-endian integer from the front of a byte
string, returning the value and the remainder; fails when fewer than w
bytes remain (bincode reads are fail-closed on truncation). -/
def readLE (w : Nat) (bs : List Nat) : Option (Nat × List Nat) :=
  if w ≤ bs.length then some (fromLEBytes (bs.take w), bs.drop w) else none

/-! ## Data model

Pubkey is a 32-byte key, modelled as a natural number below 2 ^ 256 encoded
in 32 little-endian bytes. -/

/-- Public key, as the number its 32 bytes denote in little-endian. -/
abbrev Pubkey := Nat

/-- Modelled from the spec: Authorized (stake_state.rs is not among the
given sources) carries the two public keys staker and withdrawer. -/
structure Authorized where
  staker : Pubkey
  withdrawer : Pubkey
deriving DecidableEq

/-- Modelled from the spec: Lockup (stake_state.rs is not among the given
sources) carries unix_timestamp (an i64, modelled as Int), epoch (a u64)
and the custodian public key, in that field order. -/
structure Lockup where
  unix_timestamp : Int
  epoch : Nat
  custodian : Pubkey
deriving DecidableEq

/-- Modelled from the spec: the Rust Default derive for Lockup zeroes every
field (the all-zero, inactive lockup). -/
def Lockup.lockup_default : Lockup := { unix_timestamp := 0, epoch := 0, custodian := 0 }

/-- Modelled from the spec: StakeAuthorize (stake_state.rs is not among the
given sources) selects which authority role an Authorize instruction
replaces: the staker or the withdrawer. -/
inductive StakeAuthorize where
  | Staker
  | Withdrawer
deriving DecidableEq

/-- Reasons the stake might have had an error (StakeError in
stake_instruction.rs): exactly two members, in this declaration order. -/
inductive StakeError where
  | NoCreditsToRedeem
  | LockupInForce
deriving DecidableEq

/-- Numeric code of a StakeError, as the derived ToPrimitive produces it
(the declaration index of the variant). -/
def StakeError.to_primitive : StakeError → Nat
  | .NoCreditsToRedeem => 0
  | .LockupInForce => 1

/-- Decoding of a numeric custom-error code back to a StakeError, as the
derived FromPrimitive produces it; fail-closed on unknown codes. -/
def StakeError.from_primitive : Nat → Option StakeError
  | 0 => some .NoCreditsToRedeem
  | 1 => some .LockupInForce
  | _ => none

/-- The StakeInstruction enum of stake_instruction.rs, with its six
variants in declaration order. -/
inductive StakeInstruction where
  | Initialize (authorized : Authorized) (lockup : Lockup)
  | Authorize (new_authorized : Pubkey) (stake_authorize : StakeAuthorize)
  | DelegateStake
  | RedeemVoteCredits
  | Withdraw (lamports : Nat)
  | Deactivate
deriving DecidableEq

/-! ## Wire encoding (bincode 1.x defaults: u32 little-endian enum tag,
fixed-size little-endian integers, raw 32-byte keys) -/

/-- Encoding of a 32-bit tag or enum discriminant. -/
def encodeU32 (n : Nat) : List Nat := toLEBytes 4 n

/-- Encoding of a u64 field. -/
def encodeU64 (n : Nat) : List Nat := toLEBytes 8 n

/-- Encoding of a public key as its 32 raw bytes. -/
def encodePubkey (p : Pubkey) : List Nat := toLEBytes 32 p

/-- Encoding of an i64 field in two's complement, little-endian. -/
def encodeI64 (i : Int) : List Nat := toLEBytes 8 (i.emod (2 ^ 64)).toNat

/-- Serialization of Authorized: staker then withdrawer. -/
def serializeAuthorized (a : Authorized) : List Nat :=
  encodePubkey a.staker ++ encodePubkey a.withdrawer

/-- Serialization of Lockup: unix_timestamp, epoch, custodian. -/
def serializeLockup (l : Lockup) : List Nat :=
  encodeI64 l.unix_timestamp ++ encodeU64 l.epoch ++ encodePubkey l.custodian

/-- Serialization of StakeAuthorize as a u32 enum tag. -/
def serializeStakeAuthorize : StakeAuthorize → List Nat
  | .Staker => encodeU32 0
  | .Withdrawer => encodeU32 1

/-- Bincode serialization of a StakeInstruction: u32 variant tag in
declaration order, followed by the variant's payload fields. -/
def serialize : StakeInstruction → List Nat
  | .Initialize a l => encodeU32 0 ++ serializeAuthorized a ++ serializeLockup l
  | .Authorize p sa => encodeU32 1 ++ encodePubkey p ++ serializeStakeAuthorize sa
  | .DelegateStake => encodeU32 2
  | .RedeemVoteCredits => encodeU32 3
  | .Withdraw lamports => encodeU32 4 ++ encodeU64 lamports
  | .Deactivate => encodeU32 5

/-- Reader of a public key (32 raw bytes). -/
def readPubkey (bs : List Nat) : Option (Pubkey × List Nat) := readLE 32 bs

/-- Reader of an i64 (8 little-endian bytes, two's complement). -/
def readI64 (bs : List Nat) : Option (Int × List Nat) :=
  match readLE 8 bs with
  | some (n, r) => some (if n < 2 ^ 63 then (n : Int) else (n : Int) - 2 ^ 64, r)
  | none => none

/-- Reader of an Authorized value: staker then withdrawer. -/
def readAuthorized (bs : List Nat) : Option (Authorized × List Nat) :=
  match readPubkey bs with
  | some (s, r1) =>
    match readPubkey r1 with
    | some (w, r2) => some ({ staker := s, withdrawer := w }, r2)
    | none => none
  | none => none

/-- Reader of a Lockup value: unix_timestamp, epoch, custodian. -/
def readLockup (bs : List Nat) : Option (Lockup × List Nat) :=
  match readI64 bs with
  | some (ut, r1) =>
    match readLE 8 r1 with
    | some (e, r2) =>
      match readPubkey r2 with
      | some (c, r3) => some ({ unix_timestamp := ut, epoch := e, custodian := c }, r3)
      | none => none
    | none => none
  | none => none

/-- Reader of a StakeAuthorize value (u32 tag, fail-closed). -/
def readStakeAuthorize (bs : List Nat) : Option (StakeAuthorize × List Nat) :=
  match readLE 4 bs with
  | some (0, r) => some (.Staker, r)
  | some (1, r) => some (.Withdrawer, r)
  | _ => none

/-- Parser of a StakeInstruction from the front of a byte string: u32
variant tag, then the payload; fail-closed on unknown tags and on
truncation, mirroring bincode deserialization. -/
def parseInstruction (bs : List Nat) : Option (StakeInstruction × List Nat) :=
  match readLE 4 bs with
  | some (0, r) =>
    match readAuthorized r with
    | some (a, r1) =>
      match readLockup r1 with
      | some (l, r2) => some (.Initialize a l, r2)
      | none => none
    | none => none
  | some (1, r) =>
    match readPubkey r with
    | some (p, r1) =>
      match readStakeAuthorize r1 with
      | some (sa, r2) => some (.Authorize p sa, r2)
      | none => none
    | none => none
  | some (2, r) => some (.DelegateStake, r)
  | some (3, r) => some (.RedeemVoteCredits, r)
  | some (4, r) =>
    match readLE 8 r with
    | some (n, r1) => some (.Withdraw n, r1)
    | none => none
  | some (5, r) => some (.Deactivate, r)
  | _ => none

/-- Bincode deserialization of a StakeInstruction, as the dispatcher calls
it (trailing bytes are ignored, as by bincode deserialize). -/
def deserialize (bs : List Nat) : Option StakeInstruction :=
  (parseInstruction bs).map Prod.fst

/-- Payload bounds under which a StakeInstruction value is representable on
the wire: public keys fit in 32 bytes, u64 fields in 8 bytes, i64 fields in
two's-complement range. -/
def StakeInstruction.wf : StakeInstruction → Prop
  | .Initialize a l =>
      a.staker < 2 ^ 256 ∧ a.withdrawer < 2 ^ 256 ∧
      -2 ^ 63 ≤ l.unix_timestamp ∧ l.unix_timestamp < 2 ^ 63 ∧
      l.epoch < 2 ^ 64 ∧ l.custodian < 2 ^ 256
  | .Authorize p _ => p < 2 ^ 256
  | .Withdraw lamports => lamports < 2 ^ 64
  | _ => True

/-! ## SDK account and instruction types (not among the given sources) -/

/-- Modelled from the spec: the generic instruction-processing error type
of the SDK (instruction.rs is not among the given sources), with the
variants this module produces or the spec names, plus the custom-error
slot carrying a numeric code. -/
inductive InstructionError where
  | InvalidInstructionData
  | InvalidAccountData
  | InvalidArgument
  | MissingRequiredSignature
  | InsufficientFunds
  | AccountAlreadyInitialized
  | CustomError (code : Nat)
deriving DecidableEq

/-- Modelled from the spec: AccountMeta of the SDK (instruction.rs is not
among the given sources): a public key with its signer flag and its
debitable (writable) flag. -/
structure AccountMeta where
  pubkey : Pubkey
  is_signer : Bool
  is_debitable : Bool
deriving DecidableEq

/-- Modelled from the spec: the AccountMeta constructor for a debitable
account with the given signer flag. -/
def AccountMeta.new (pubkey : Pubkey) (is_signer : Bool) : AccountMeta :=
  { pubkey := pubkey, is_signer := is_signer, is_debitable := true }

/-- Modelled from the spec: the AccountMeta constructor for a credit-only
account with the given signer flag. -/
def AccountMeta.new_credit_only (pubkey : Pubkey) (is_signer : Bool) : AccountMeta :=
  { pubkey := pubkey, is_signer := is_signer, is_debitable := false }

/-- Modelled from the spec: Instruction of the SDK: a program id, the
serialized instruction data, and the ordered account-meta list. -/
structure Instruction where
  program_id : Pubkey
  data : List Nat
  accounts : List AccountMeta
deriving DecidableEq

/-- Construction of an Instruction from a StakeInstruction, serializing the
payload with bincode as the generic SDK constructor does. -/
def Instruction.new (program_id : Pubkey) (instr : StakeInstruction)
    (accounts : List AccountMeta) : Instruction :=
  { program_id := program_id, data := serialize instr, accounts := accounts }

/-- Modelled from the spec: a KeyedAccount, an account tagged with its
public key and whether it provided a valid signature; the account state
visible to this module is its lamport balance and its data bytes. -/
structure KeyedAccount where
  key : Pubkey
  is_signer : Bool
  lamports : Nat
  data : List Nat
deriving DecidableEq

/-! ## Program and sysvar ids (not among the given sources): modelled as
distinct fixed keys, their concrete values immaterial to every claim. -/

/-- Modelled from the spec: id() of the stake_api crate. -/
def stake_api_id : Pubkey := 1001

/-- Modelled from the spec: the system program id. -/
def system_program_id : Pubkey := 1002

/-- Modelled from the spec: sysvar::rent::id(). -/
def sysvar_rent_id : Pubkey := 1003

/-- Modelled from the spec: sysvar::clock::id(). -/
def sysvar_clock_id : Pubkey := 1004

/-- Modelled from the spec: sysvar::rewards::id(). -/
def sysvar_rewards_id : Pubkey := 1005

/-- Modelled from the spec: sysvar::stake_history::id(). -/
def sysvar_stake_history_id : Pubkey := 1006

/-- Modelled from the spec: crate::config::id(), the stake-config account. -/
def config_id : Pubkey := 1007

/-- Modelled from the spec: the serialized size of StakeState, a fixed
constant whose exact value is immaterial to every claim below. -/
def stake_state_size_of : Nat := 96

/-- Modelled from the spec: system_instruction::create_account of the SDK
(out of core scope): funds a new account of the given size and owner; both
the funder and the new account sign. -/
def system_instruction_create_account (from_pubkey to_pubkey : Pubkey)
    (lamports space : Nat) (owner : Pubkey) : Instruction :=
  { program_id := system_program_id,
    data := encodeU32 0 ++ encodeU64 lamports ++ encodeU64 space ++ encodePubkey owner,
    accounts := [AccountMeta.new from_pubkey true, AccountMeta.new to_pubkey true] }

/-! ## Instruction builders (stake_instruction.rs) -/

/-- Sequence building a stake account with an explicit lockup: a system
create-account instruction followed by an Initialize instruction naming
the new stake account and the rent sysvar. -/
def create_stake_account_with_lockup (from_pubkey stake_pubkey : Pubkey)
    (authorized : Authorized) (lockup : Lockup) (lamports : Nat) : List Instruction :=
  [system_instruction_create_account from_pubkey stake_pubkey lamports
      stake_state_size_of stake_api_id,
   Instruction.new stake_api_id (.Initialize authorized lockup)
      [AccountMeta.new stake_pubkey false,
       AccountMeta.new sysvar_rent_id false]]

/-- Sequence building a stake account without an explicit lockup. -/
def create_stake_account (from_pubkey stake_pubkey : Pubkey)
    (authorized : Authorized) (lamports : Nat) : List Instruction :=
  create_stake_account_with_lockup from_pubkey stake_pubkey authorized
    Lockup.lockup_default lamports

/-- Account-meta list for instructions whose authorized signer may differ
from the account's pubkey: the account first (signing only when it is its
own signer), then the other params pushed in order, then, when the signer
differs, the authorized signer appended last as a credit-only signer. -/
def metas_for_authorized_signer (account_pubkey authorized_signer : Pubkey)
    (other_params : List AccountMeta) : List AccountMeta :=
  let is_own_signer : Bool := authorized_signer == account_pubkey
  let account_metas := [AccountMeta.new account_pubkey is_own_signer]
  let account_metas := other_params.foldl (fun metas meta => metas ++ [meta]) account_metas
  if is_own_signer then account_metas
  else account_metas ++ [AccountMeta.new_credit_only authorized_signer true]

/-- Builder of an Authorize instruction. -/
def authorize (stake_pubkey authorized_pubkey new_authorized_pubkey : Pubkey)
    (stake_authorize : StakeAuthorize) : Instruction :=
  let account_metas := metas_for_authorized_signer stake_pubkey authorized_pubkey []
  Instruction.new stake_api_id (.Authorize new_authorized_pubkey stake_authorize) account_metas

/-- Builder of a RedeemVoteCredits instruction.  The rewards-pool key is
drawn by crate::rewards_pools::random_id(), which is not among the given
sources; it is passed here as the explicit first argument, and no claim
below depends on its value. -/
def redeem_vote_credits (rewards_pool_pubkey stake_pubkey vote_pubkey : Pubkey) : Instruction :=
  let account_metas :=
    [AccountMeta.new stake_pubkey false,
     AccountMeta.new_credit_only vote_pubkey false,
     AccountMeta.new rewards_pool_pubkey false,
     AccountMeta.new_credit_only sysvar_rewards_id false,
     AccountMeta.new_credit_only sysvar_stake_history_id false]
  Instruction.new stake_api_id .RedeemVoteCredits account_metas

/-- Builder of a DelegateStake instruction. -/
def delegate_stake (stake_pubkey authorized_pubkey vote_pubkey : Pubkey) : Instruction :=
  let account_metas := metas_for_authorized_signer stake_pubkey authorized_pubkey
    [AccountMeta.new_credit_only vote_pubkey false,
     AccountMeta.new_credit_only sysvar_clock_id false,
     AccountMeta.new_credit_only config_id false]
  Instruction.new stake_api_id .DelegateStake account_metas

/-- Builder of a Withdraw instruction: clock and stake-history first, the
destination pushed only when it differs from the authorized withdrawer,
then the signer resolution of metas_for_authorized_signer. -/
def withdraw (stake_pubkey authorized_pubkey to_pubkey : Pubkey) (lamports : Nat) : Instruction :=
  let accounts :=
    [AccountMeta.new_credit_only sysvar_clock_id false,
     AccountMeta.new_credit_only sysvar_stake_history_id false]
  let accounts :=
    if to_pubkey ≠ authorized_pubkey then
      accounts ++ [AccountMeta.new_credit_only to_pubkey false]
    else accounts
  let account_metas := metas_for_authorized_signer stake_pubkey authorized_pubkey accounts
  Instruction.new stake_api_id (.Withdraw lamports) account_metas

/-- Builder of a Deactivate instruction. -/
def deactivate_stake (stake_pubkey authorized_pubkey : Pubkey) : Instruction :=
  let account_metas := metas_for_authorized_signer stake_pubkey authorized_pubkey
    [AccountMeta.new_credit_only sysvar_clock_id false]
  Instruction.new stake_api_id .Deactivate account_metas

/-! ## The dispatcher -/

/-- Modelled from the spec: the state-machine operations of stake_state.rs
and the sysvar/config/rent account parsing are not among the given
sources; they are abstracted as an operation table, each field taking the
primary account and the remaining accounts (plus the decoded payload) and
returning an optional error together with the resulting full account
list.  Every dispatcher theorem below holds for an arbitrary table, so it
depends only on the code that is in stake_instruction.rs. -/
structure StakeOps where
  op_initialize : KeyedAccount → List KeyedAccount → Authorized → Lockup →
    Option InstructionError × List KeyedAccount
  op_authorize : KeyedAccount → List KeyedAccount → Pubkey → StakeAuthorize →
    Option InstructionError × List KeyedAccount
  op_delegate_stake : KeyedAccount → List KeyedAccount →
    Option InstructionError × List KeyedAccount
  op_redeem_vote_credits : KeyedAccount → List KeyedAccount →
    Option InstructionError × List KeyedAccount
  op_withdraw : KeyedAccount → List KeyedAccount → Nat →
    Option InstructionError × List KeyedAccount
  op_deactivate_stake : KeyedAccount → List KeyedAccount →
    Option InstructionError × List KeyedAccount

/-- Operation table whose every operation succeeds and leaves every account
unchanged: under it, any error out of process_instruction comes from the
dispatcher's own structural checks. -/
def StakeOps.trivial_ok : StakeOps :=
  { op_initialize := fun me rest _ _ => (none, me :: rest),
    op_authorize := fun me rest _ _ => (none, me :: rest),
    op_delegate_stake := fun me rest => (none, me :: rest),
    op_redeem_vote_credits := fun me rest => (none, me :: rest),
    op_withdraw := fun me rest _ => (none, me :: rest),
    op_deactivate_stake := fun me rest => (none, me :: rest) }

/-- The dispatcher process_instruction of stake_instruction.rs: empty
account-list check, bincode decode of the payload, then the per-variant
account-arity guard before any operation runs.  State is threaded
explicitly: the result pairs the optional error (None for success) with
the final account list, and every structural-failure path returns the
accounts exactly as supplied. -/
def process_instruction (ops : StakeOps) (_program_id : Pubkey)
    (keyed_accounts : List KeyedAccount) (data : List Nat) :
    Option InstructionError × List KeyedAccount :=
  match keyed_accounts with
  | [] => (some .InvalidInstructionData, [])
  | me :: rest =>
    match deserialize data with
    | none => (some .InvalidInstructionData, me :: rest)
    | some (.Initialize authorized lockup) =>
      if rest.isEmpty then (some .InvalidInstructionData, me :: rest)
      else ops.op_initialize me rest authorized lockup
    | some (.Authorize authorized_pubkey stake_authorize) =>
      ops.op_authorize me rest authorized_pubkey stake_authorize
    | some .DelegateStake =>
      if rest.length < 3 then (some .InvalidInstructionData, me :: rest)
      else ops.op_delegate_stake me rest
    | some .RedeemVoteCredits =>
      if rest.length ≠ 4 then (some .InvalidInstructionData, me :: rest)
      else ops.op_redeem_vote_credits me rest
    | some (.Withdraw lamports) =>
      if rest.length < 3 then (some .InvalidInstructionData, me :: rest)
      else ops.op_withdraw me rest lamports
    | some .Deactivate =>
      if rest.isEmpty then (some .InvalidInstructionData, me :: rest)
      else ops.op_deactivate_stake me rest

/-- Extra accounts (beyond the primary stake account) each variant
requires before its guard lets the operation run: Initialize 1,
Authorize 0, DelegateStake 3, RedeemVoteCredits 4, Withdraw 3,
Deactivate 1, read off the guards of process_instruction. -/
def requiredExtras : StakeInstruction → Nat
  | .Initialize _ _ => 1
  | .Authorize _ _ => 0
  | .DelegateStake => 3
  | .RedeemVoteCredits => 4
  | .Withdraw _ => 3
  | .Deactivate => 1

/-- The account-arity guard of each dispatch arm of process_instruction,
as a predicate on the number of extra accounts: emptiness for Initialize
and Deactivate, strict lower bounds for DelegateStake and Withdraw, exact
inequality for RedeemVoteCredits, and no guard for Authorize. -/
def arity_check_fails : StakeInstruction → Nat → Bool
  | .Initialize _ _, n => n == 0
  | .Authorize _ _, _ => false
  | .DelegateStake, n => decide (n < 3)
  | .RedeemVoteCredits, n => n != 4
  | .Withdraw _, n => decide (n < 3)
  | .Deactivate, n => n == 0

/-- KeyedAccount materialized for an account meta with a default (empty)
account, as the test harness of stake_instruction.rs does before invoking
the dispatcher on a built instruction. -/
def keyed_account_of_meta (m : AccountMeta) : KeyedAccount :=
  { key := m.pubkey, is_signer := m.is_signer, lamports := 0, data := [] }

/-- Keyed-account list materialized for a built instruction. -/
def keyed_accounts_of (i : Instruction) : List KeyedAccount :=
  i.accounts.map keyed_account_of_meta

/-! ## Lemmas on the byte-level readers -/

/-- Width of an encoded little-endian byte string. -/
theorem toLEBytes_length (w n : Nat) : (toLEBytes w n).length = w := by
  induction w generalizing n with
  | zero => rfl
  | succ w ih => simp [toLEBytes, ih]

/-- Decoding inverts encoding for values that fit in the width. -/
theorem fromLEBytes_toLEBytes (w n : Nat) (h : n < 256 ^ w) :
    fromLEBytes (toLEBytes w n) = n := by
  induction w generalizing n with
  | zero =>
    interval_cases n
    rfl
  | succ w ih =>
    have hdiv : n / 256 < 256 ^ w := by
      rw [Nat.div_lt_iff_lt_mul (by norm_num)]
      calc n < 256 ^ (w + 1) := h
        _ = 256 ^ w * 256 := by ring
    simp only [toLEBytes, fromLEBytes, ih (n / 256) hdiv]
    omega

/-- Reading w bytes off an encoded value followed by a remainder always
succeeds, consumes exactly the encoded bytes, and returns the number the
encoded bytes denote. -/
theorem readLE_exact (l rest : List Nat) (w : Nat) (hl : l.length = w) :
    readLE w (l ++ rest) = some (fromLEBytes l, rest) := by
  subst hl
  simp [readLE, List.take_left, List.drop_left]

/-- Specialization of readLE_exact to an encoded byte string. -/
theorem readLE_toLEBytes_any (w n : Nat) (rest : List Nat) :
    readLE w (toLEBytes w n ++ rest) = some (fromLEBytes (toLEBytes w n), rest) :=
  readLE_exact (toLEBytes w n) rest w (toLEBytes_length w n)

/-- Reading w bytes off an encoded value followed by a remainder returns
the encoded value and the remainder, whenever the value fits. -/
theorem readLE_toLEBytes (w n : Nat) (rest : List Nat) (h : n < 256 ^ w) :
    readLE w (toLEBytes w n ++ rest) = some (n, rest) := by
  rw [readLE_toLEBytes_any w n rest, fromLEBytes_toLEBytes w n h]

/-- Reading back an encoded public key. -/
theorem readPubkey_encodePubkey (p : Pubkey) (rest : List Nat) (h : p < 2 ^ 256) :
    readPubkey (encodePubkey p ++ rest) = some (p, rest) := by
  have h32 : p < 256 ^ 32 := by
    calc p < 2 ^ 256 := h
      _ = 256 ^ 32 := by norm_num
  exact readLE_toLEBytes 32 p rest h32

/-- Reading back an encoded u64. -/
theorem readLE_encodeU64 (n : Nat) (rest : List Nat) (h : n < 2 ^ 64) :
    readLE 8 (encodeU64 n ++ rest) = some (n, rest) := by
  have h8 : n < 256 ^ 8 := by
    calc n < 2 ^ 64 := h
      _ = 256 ^ 8 := by norm_num
  exact readLE_toLEBytes 8 n rest h8

/-- Reading back an encoded i64 in two's-complement range. -/
theorem readI64_encodeI64 (i : Int) (rest : List Nat)
    (h1 : -2 ^ 63 ≤ i) (h2 : i < 2 ^ 63) :
    readI64 (encodeI64 i ++ rest) = some (i, rest) := by
  have hnn : 0 ≤ i.emod (2 ^ 64) := Int.emod_nonneg i (by norm_num)
  have hlt : i.emod (2 ^ 64) < 2 ^ 64 := Int.emod_lt_of_pos i (by norm_num)
  have hbound : (i.emod (2 ^ 64)).toNat < 256 ^ 8 := by
    have : (256 : Nat) ^ 8 = 2 ^ 64 := by norm_num
    omega
  simp only [encodeI64, readI64, readLE_toLEBytes 8 (i.emod (2 ^ 64)).toNat rest hbound,
    Option.some.injEq, Prod.mk.injEq]
  refine ⟨?_, trivial⟩
  have e64 : (2 : Int) ^ 64 = 18446744073709551616 := by norm_num
  have e63 : (2 : Nat) ^ 63 = 9223372036854775808 := by norm_num
  rw [e64, e63]
  have hed : i.emod 18446744073709551616 +
      18446744073709551616 * (i.ediv 18446744073709551616) = i :=
    Int.emod_add_ediv i 18446744073709551616
  have hnn2 : 0 ≤ i.emod 18446744073709551616 := Int.emod_nonneg i (by norm_num)
  have hlt2 : i.emod 18446744073709551616 < 18446744073709551616 :=
    Int.emod_lt_of_pos i (by norm_num)
  split <;> omega

/-- Reading back an encoded Authorized value. -/
theorem readAuthorized_serializeAuthorized (a : Authorized) (rest : List Nat)
    (h1 : a.staker < 2 ^ 256) (h2 : a.withdrawer < 2 ^ 256) :
    readAuthorized (serializeAuthorized a ++ rest) = some (a, rest) := by
  simp only [serializeAuthorized, List.append_assoc, readAuthorized,
    readPubkey_encodePubkey a.staker _ h1, readPubkey_encodePubkey a.withdrawer rest h2]

/-- Reading back an encoded Lockup value. -/
theorem readLockup_serializeLockup (l : Lockup) (rest : List Nat)
    (h1 : -2 ^ 63 ≤ l.unix_timestamp) (h2 : l.unix_timestamp < 2 ^ 63)
    (h3 : l.epoch < 2 ^ 64) (h4 : l.custodian < 2 ^ 256) :
    readLockup (serializeLockup l ++ rest) = some (l, rest) := by
  simp only [serializeLockup, List.append_assoc, readLockup,
    readI64_encodeI64 l.unix_timestamp _ h1 h2,
    readLE_encodeU64 l.epoch _ h3,
    readPubkey_encodePubkey l.custodian rest h4]

/-- Reading back an encoded StakeAuthorize value. -/
theorem readStakeAuthorize_serialize (sa : StakeAuthorize) (rest : List Nat) :
    readStakeAuthorize (serializeStakeAuthorize sa ++ rest) = some (sa, rest) := by
  cases sa
  case Staker =>
    simp only [serializeStakeAuthorize, readStakeAuthorize, encodeU32,
      readLE_toLEBytes 4 0 rest (by norm_num)]
  case Withdrawer =>
    simp only [serializeStakeAuthorize, readStakeAuthorize, encodeU32,
      readLE_toLEBytes 4 1 rest (by norm_num)]

/-- Parsing inverts serialization for representable instruction values,
with any trailing bytes returned untouched. -/
theorem parseInstruction_serialize (i : StakeInstruction) (rest : List Nat)
    (h : i.wf) : parseInstruction (serialize i ++ rest) = some (i, rest) := by
  cases i with
  | Initialize a l =>
    obtain ⟨h1, h2, h3, h4, h5, h6⟩ := h
    simp only [serialize, List.append_assoc, parseInstruction, encodeU32,
      readLE_toLEBytes 4 0 _ (by norm_num),
      readAuthorized_serializeAuthorized a _ h1 h2,
      readLockup_serializeLockup l rest h3 h4 h5 h6]
  | Authorize p sa =>
    simp only [serialize, List.append_assoc, parseInstruction, encodeU32,
      readLE_toLEBytes 4 1 _ (by norm_num),
      readPubkey_encodePubkey p _ h,
      readStakeAuthorize_serialize sa rest]
  | DelegateStake =>
    simp only [serialize, parseInstruction, encodeU32,
      readLE_toLEBytes 4 2 rest (by norm_num)]
  | RedeemVoteCredits =>
    simp only [serialize, parseInstruction, encodeU32,
      readLE_toLEBytes 4 3 rest (by norm_num)]
  | Withdraw lamports =>
    simp only [serialize, List.append_assoc, parseInstruction, encodeU32,
      readLE_toLEBytes 4 4 _ (by norm_num),
      readLE_encodeU64 lamports rest h]
  | Deactivate =>
    simp only [serialize, parseInstruction, encodeU32,
      readLE_toLEBytes 4 5 rest (by norm_num)]

/-- Claim C2: for every value of the StakeInstruction enum (all six
variants, with arbitrary representable Authorized, Lockup, Pubkey,
StakeAuthorize and u64 payloads), serializing it to bytes and then
deserializing those bytes yields the original value. -/
theorem claimC2 (i : StakeInstruction) (h : i.wf) :
    deserialize (serialize i) = some i := by
  have hp := parseInstruction_serialize i [] h
  rw [List.append_nil] at hp
  rw [deserialize, hp]
  rfl

/-- Witness for C2 at a concrete Initialize instruction with nonzero,
negative-timestamp payloads. -/
theorem claimC2_witness :
    (StakeInstruction.Initialize { staker := 1, withdrawer := 2 }
      { unix_timestamp := -5, epoch := 7, custodian := 3 }).wf ∧
    deserialize (serialize (StakeInstruction.Initialize { staker := 1, withdrawer := 2 }
      { unix_timestamp := -5, epoch := 7, custodian := 3 })) =
    some (StakeInstruction.Initialize { staker := 1, withdrawer := 2 }
      { unix_timestamp := -5, epoch := 7, custodian := 3 }) :=
  ⟨by simp only [StakeInstruction.wf]; norm_num,
   claimC2 _ (by simp only [StakeInstruction.wf]; norm_num)⟩

/-! ## Lemmas on the builders and the dispatcher -/

/-- Folding push over a list appends it. -/
theorem foldl_push (l init : List AccountMeta) :
    l.foldl (fun metas meta => metas ++ [meta]) init = init ++ l := by
  induction l generalizing init with
  | nil => simp
  | cons a t ih => simp [List.foldl_cons, ih]

/-- Closed form of metas_for_authorized_signer: the primary account first,
signing exactly when the authorized signer is the account's own key, then
the other params in order, then — exactly when the signer differs — the
authorized signer appended last as a signer. -/
theorem metas_for_authorized_signer_eq (account_pubkey authorized_signer : Pubkey)
    (other_params : List AccountMeta) :
    metas_for_authorized_signer account_pubkey authorized_signer other_params =
      AccountMeta.new account_pubkey (authorized_signer == account_pubkey) ::
        (other_params ++
          (if authorized_signer = account_pubkey then []
           else [AccountMeta.new_credit_only authorized_signer true])) := by
  simp only [metas_for_authorized_signer, foldl_push]
  by_cases hcase : authorized_signer = account_pubkey
  · simp [hcase]
  · simp [hcase]

/-- Claim C5: for every (account_pubkey, authorized_signer, other_params),
metas_for_authorized_signer places the primary account first with its
signer flag set if and only if authorized_signer equals account_pubkey,
then the other_params account metas in their given order, and, exactly
when authorized_signer differs from account_pubkey, appends
authorized_signer as the final account with its signer flag set. -/
theorem claimC5 (account_pubkey authorized_signer : Pubkey)
    (other_params : List AccountMeta) :
    metas_for_authorized_signer account_pubkey authorized_signer other_params =
      AccountMeta.new account_pubkey (authorized_signer == account_pubkey) ::
        (other_params ++
          (if authorized_signer = account_pubkey then []
           else [AccountMeta.new_credit_only authorized_signer true])) :=
  metas_for_authorized_signer_eq account_pubkey authorized_signer other_params

/-- Claim C1: for every instruction variant, when process_instruction is
given fewer extra accounts beyond the primary stake account than the
variant requires (Initialize 1, DelegateStake 3, RedeemVoteCredits 4,
Withdraw 3, Deactivate 1), it returns InvalidInstructionData with every
account exactly as supplied; the statement holds for arbitrary operation
tables and arbitrary account contents, so the arity check precedes any
reading or interpretation of account data and any type or content check. -/
theorem claimC1 (ops : StakeOps) (pid : Pubkey) (me : KeyedAccount)
    (rest : List KeyedAccount) (data : List Nat) (instr : StakeInstruction)
    (hdec : deserialize data = some instr)
    (hlen : rest.length < requiredExtras instr) :
    process_instruction ops pid (me :: rest) data =
      (some .InvalidInstructionData, me :: rest) := by
  cases instr with
  | Initialize authorized lockup =>
    have h0 : rest = [] := by
      simpa [requiredExtras, Nat.lt_one_iff, List.length_eq_zero] using hlen
    subst h0
    simp [process_instruction, hdec]
  | Authorize p sa =>
    simp [requiredExtras] at hlen
  | DelegateStake =>
    simp only [requiredExtras] at hlen
    simp [process_instruction, hdec, hlen]
  | RedeemVoteCredits =>
    simp only [requiredExtras] at hlen
    have hne : rest.length ≠ 4 := by omega
    simp [process_instruction, hdec, hne]
  | Withdraw lamports =>
    simp only [requiredExtras] at hlen
    simp [process_instruction, hdec, hlen]
  | Deactivate =>
    have h0 : rest = [] := by
      simpa [requiredExtras, Nat.lt_one_iff, List.length_eq_zero] using hlen
    subst h0
    simp [process_instruction, hdec]

/-- Witness for C1: a DelegateStake payload with a single supplied account
(zero extra accounts) is rejected with InvalidInstructionData. -/
theorem claimC1_witness :
    deserialize [2, 0, 0, 0] = some StakeInstruction.DelegateStake ∧
    ([] : List KeyedAccount).length < requiredExtras StakeInstruction.DelegateStake ∧
    process_instruction StakeOps.trivial_ok 0
      [{ key := 0, is_signer := false, lamports := 0, data := [] }] [2, 0, 0, 0] =
      (some InstructionError.InvalidInstructionData,
        [{ key := 0, is_signer := false, lamports := 0, data := [] }]) :=
  ⟨by decide, by decide,
   claimC1 StakeOps.trivial_ok 0
     { key := 0, is_signer := false, lamports := 0, data := [] } [] [2, 0, 0, 0]
     StakeInstruction.DelegateStake (by decide) (by decide)⟩

/-- Claim C7: for every byte payload, valid or not, process_instruction
with an empty keyed-accounts list returns InvalidInstructionData; the
result does not depend on the payload, so the presence check precedes any
decoding. -/
theorem claimC7 (ops : StakeOps) (pid : Pubkey) (data : List Nat) :
    process_instruction ops pid [] data =
      (some InstructionError.InvalidInstructionData, []) := rfl

/-- Claim C6: whenever process_instruction fails a structural check — the
empty-account-list check, instruction decode failure, or an account-arity
guard — it returns InvalidInstructionData with every supplied account
exactly as it came in; the operation table is arbitrary, so no
state-machine operation can have run or mutated anything. -/
theorem claimC6 (ops : StakeOps) (pid : Pubkey) (accounts : List KeyedAccount)
    (data : List Nat)
    (h : accounts = [] ∨ deserialize data = none ∨
      ∃ me rest instr, accounts = me :: rest ∧ deserialize data = some instr ∧
        arity_check_fails instr rest.length = true) :
    process_instruction ops pid accounts data =
      (some InstructionError.InvalidInstructionData, accounts) := by
  rcases h with h | h | ⟨me, rest, instr, rfl, hdec, hfail⟩
  · subst h
    rfl
  · cases accounts with
    | nil => rfl
    | cons me rest => simp [process_instruction, h]
  · cases instr with
    | Initialize authorized lockup =>
      simp only [arity_check_fails, beq_iff_eq] at hfail
      have h0 : rest = [] := List.length_eq_zero.mp hfail
      subst h0
      simp [process_instruction, hdec]
    | Authorize p sa =>
      simp [arity_check_fails] at hfail
    | DelegateStake =>
      simp only [arity_check_fails, decide_eq_true_eq] at hfail
      simp [process_instruction, hdec, hfail]
    | RedeemVoteCredits =>
      simp only [arity_check_fails, bne_iff_ne, ne_eq] at hfail
      simp [process_instruction, hdec, hfail]
    | Withdraw lamports =>
      simp only [arity_check_fails, decide_eq_true_eq] at hfail
      simp [process_instruction, hdec, hfail]
    | Deactivate =>
      simp only [arity_check_fails, beq_iff_eq] at hfail
      have h0 : rest = [] := List.length_eq_zero.mp hfail
      subst h0
      simp [process_instruction, hdec]

/-- Witness for C6 at the empty account list with an undecodable payload. -/
theorem claimC6_witness :
    process_instruction StakeOps.trivial_ok 0 [] [9] =
      (some InstructionError.InvalidInstructionData, []) :=
  claimC6 StakeOps.trivial_ok 0 [] [9] (Or.inl rfl)

/-- Claim C8: the instruction built by redeem_vote_credits marks no account
as a signer, whatever the rewards-pool, stake and vote keys are: redemption
requires no signature from any party. -/
theorem claimC8 (rewards_pool_pubkey stake_pubkey vote_pubkey : Pubkey) :
    ((redeem_vote_credits rewards_pool_pubkey stake_pubkey vote_pubkey).accounts.all
      (fun meta => !meta.is_signer)) = true := rfl

/-- Claim C9: the domain error taxonomy has exactly two members with
distinct stable codes — NoCreditsToRedeem maps to custom-error code 0 and
LockupInForce to code 1 — and encoding then decoding the code of each
member yields that member back. -/
theorem claimC9 :
    StakeError.to_primitive .NoCreditsToRedeem = 0 ∧
    StakeError.to_primitive .LockupInForce = 1 ∧
    StakeError.NoCreditsToRedeem ≠ StakeError.LockupInForce ∧
    (∀ e : StakeError, StakeError.from_primitive (StakeError.to_primitive e) = some e) ∧
    (∀ e : StakeError, e = .NoCreditsToRedeem ∨ e = .LockupInForce) := by
  refine ⟨rfl, rfl, by decide, ?_, ?_⟩ <;>
    intro e <;> cases e <;>
    simp [StakeError.to_primitive, StakeError.from_primitive]

/-- Claim C10: for every (from_pubkey, stake_pubkey, authorized, lamports),
create_stake_account returns exactly the instruction sequence of
create_stake_account_with_lockup at the default lockup, and that default
lockup is the all-zero, inactive one. -/
theorem claimC10 (from_pubkey stake_pubkey : Pubkey) (authorized : Authorized)
    (lamports : Nat) :
    create_stake_account from_pubkey stake_pubkey authorized lamports =
      create_stake_account_with_lockup from_pubkey stake_pubkey authorized
        Lockup.lockup_default lamports ∧
    Lockup.lockup_default = { unix_timestamp := 0, epoch := 0, custodian := 0 } :=
  ⟨rfl, rfl⟩

/-- Counterexample to C4: a RedeemVoteCredits payload with five extra
accounts beyond the primary one (more than the four the claim calls a
minimum) is rejected by the account-count guard with
InvalidInstructionData, even under the all-succeeding operation table that
can produce no error of its own: the guard is an exact-count check, not a
minimum. -/
theorem claimC4_counterexample :
    process_instruction StakeOps.trivial_ok 0
      [{ key := 0, is_signer := false, lamports := 0, data := [] },
       { key := 0, is_signer := false, lamports := 0, data := [] },
       { key := 0, is_signer := false, lamports := 0, data := [] },
       { key := 0, is_signer := false, lamports := 0, data := [] },
       { key := 0, is_signer := false, lamports := 0, data := [] },
       { key := 0, is_signer := false, lamports := 0, data := [] }]
      [3, 0, 0, 0] =
      (some InstructionError.InvalidInstructionData,
       [{ key := 0, is_signer := false, lamports := 0, data := [] },
        { key := 0, is_signer := false, lamports := 0, data := [] },
        { key := 0, is_signer := false, lamports := 0, data := [] },
        { key := 0, is_signer := false, lamports := 0, data := [] },
        { key := 0, is_signer := false, lamports := 0, data := [] },
        { key := 0, is_signer := false, lamports := 0, data := [] }]) := by decide

/-- Claim C4 as amended: the extra-account count for RedeemVoteCredits is
exact, not a minimum: with a primary account present and a payload decoding
to RedeemVoteCredits, the dispatcher runs the operation exactly when the
number of extra accounts equals 4, and fails the account-count check with
InvalidInstructionData (leaving the accounts as supplied) whenever it
differs from 4 — fewer or more. -/
theorem claimC4_amended (ops : StakeOps) (pid : Pubkey) (me : KeyedAccount)
    (rest : List KeyedAccount) (data : List Nat)
    (hdec : deserialize data = some StakeInstruction.RedeemVoteCredits) :
    process_instruction ops pid (me :: rest) data =
      (if rest.length = 4 then ops.op_redeem_vote_credits me rest
       else (some InstructionError.InvalidInstructionData, me :: rest)) := by
  by_cases h4 : rest.length = 4
  · simp [process_instruction, hdec, h4]
  · simp [process_instruction, hdec, h4]

/-- Witness for the amended C4 at five extra accounts. -/
theorem claimC4_amended_witness :
    deserialize [3, 0, 0, 0] = some StakeInstruction.RedeemVoteCredits ∧
    process_instruction StakeOps.trivial_ok 0
      ({ key := 0, is_signer := false, lamports := 0, data := [] } ::
       [{ key := 1, is_signer := false, lamports := 0, data := [] },
        { key := 2, is_signer := false, lamports := 0, data := [] },
        { key := 3, is_signer := false, lamports := 0, data := [] },
        { key := 4, is_signer := false, lamports := 0, data := [] },
        { key := 5, is_signer := false, lamports := 0, data := [] }])
      [3, 0, 0, 0] =
      (if ([{ key := 1, is_signer := false, lamports := 0, data := [] },
            { key := 2, is_signer := false, lamports := 0, data := [] },
            { key := 3, is_signer := false, lamports := 0, data := [] },
            { key := 4, is_signer := false, lamports := 0, data := [] },
            { key := 5, is_signer := false, lamports := 0, data := [] }] :
            List KeyedAccount).length = 4
       then StakeOps.trivial_ok.op_redeem_vote_credits
         { key := 0, is_signer := false, lamports := 0, data := [] }
         [{ key := 1, is_signer := false, lamports := 0, data := [] },
          { key := 2, is_signer := false, lamports := 0, data := [] },
          { key := 3, is_signer := false, lamports := 0, data := [] },
          { key := 4, is_signer := false, lamports := 0, data := [] },
          { key := 5, is_signer := false, lamports := 0, data := [] }]
       else (some InstructionError.InvalidInstructionData,
         { key := 0, is_signer := false, lamports := 0, data := [] } ::
         [{ key := 1, is_signer := false, lamports := 0, data := [] },
          { key := 2, is_signer := false, lamports := 0, data := [] },
          { key := 3, is_signer := false, lamports := 0, data := [] },
          { key := 4, is_signer := false, lamports := 0, data := [] },
          { key := 5, is_signer := false, lamports := 0, data := [] }])) :=
  ⟨by decide,
   claimC4_amended StakeOps.trivial_ok 0
     { key := 0, is_signer := false, lamports := 0, data := [] }
     [{ key := 1, is_signer := false, lamports := 0, data := [] },
      { key := 2, is_signer := false, lamports := 0, data := [] },
      { key := 3, is_signer := false, lamports := 0, data := [] },
      { key := 4, is_signer := false, lamports := 0, data := [] },
      { key := 5, is_signer := false, lamports := 0, data := [] }]
     [3, 0, 0, 0] (by decide)⟩

/-- Deserializing a serialized Withdraw instruction always yields a
Withdraw instruction (with the amount reduced modulo 2 ^ 64), with no
bound on the amount needed. -/
theorem deserialize_serialize_withdraw (lamports : Nat) :
    deserialize (serialize (StakeInstruction.Withdraw lamports)) =
      some (StakeInstruction.Withdraw (fromLEBytes (toLEBytes 8 lamports))) := by
  have h8 := readLE_toLEBytes_any 8 lamports []
  rw [List.append_nil] at h8
  simp only [serialize, deserialize, parseInstruction, encodeU32, encodeU64,
    readLE_toLEBytes 4 4 (toLEBytes 8 lamports) (by norm_num), h8, Option.map_some']

/-- Counterexample to C3: when the destination, the authorized withdrawer
and the stake account coincide, the withdraw builder emits only two extra
accounts (clock and stake-history; no destination is pushed and no extra
signer is appended), so the built instruction fails the dispatcher's
Withdraw arity check with InvalidInstructionData even under the
all-succeeding operation table. -/
theorem claimC3_counterexample :
    (withdraw 0 0 0 1).accounts.length = 3 ∧
    process_instruction StakeOps.trivial_ok 0
      (keyed_accounts_of (withdraw 0 0 0 1)) (withdraw 0 0 0 1).data =
      (some InstructionError.InvalidInstructionData,
       keyed_accounts_of (withdraw 0 0 0 1)) := by
  constructor <;> decide

/-- Claim C3 as amended: for every (stake_pubkey, authorized_pubkey,
to_pubkey, lamports) except the degenerate case where the destination, the
authorized withdrawer and the stake account all coincide, the instruction
produced by the withdraw builder carries at least three extra accounts
after the primary stake account and passes every structural check of the
dispatcher (shown by running it under the all-succeeding operation table);
in particular when to_pubkey equals authorized_pubkey but the authorized
withdrawer is not the stake account itself, the destination is implicit
and the built instruction is still accepted. -/
theorem claimC3_amended (stake_pubkey authorized_pubkey to_pubkey : Pubkey)
    (lamports : Nat) (pid : Pubkey)
    (h : ¬(to_pubkey = authorized_pubkey ∧ authorized_pubkey = stake_pubkey)) :
    4 ≤ (withdraw stake_pubkey authorized_pubkey to_pubkey lamports).accounts.length ∧
    process_instruction StakeOps.trivial_ok pid
      (keyed_accounts_of (withdraw stake_pubkey authorized_pubkey to_pubkey lamports))
      (withdraw stake_pubkey authorized_pubkey to_pubkey lamports).data =
      (none,
       keyed_accounts_of (withdraw stake_pubkey authorized_pubkey to_pubkey lamports)) := by
  have hdes := deserialize_serialize_withdraw lamports
  rcases Decidable.em (to_pubkey = authorized_pubkey) with hta | hta <;>
    rcases Decidable.em (authorized_pubkey = stake_pubkey) with has | has
  · exact absurd ⟨hta, has⟩ h
  · constructor <;>
      simp [withdraw, Instruction.new, metas_for_authorized_signer_eq, hta, has,
        keyed_accounts_of, keyed_account_of_meta, process_instruction, hdes,
        StakeOps.trivial_ok]
  · have hts : ¬to_pubkey = stake_pubkey := has ▸ hta
    constructor <;>
      simp [withdraw, Instruction.new, metas_for_authorized_signer_eq, hta, has, hts,
        keyed_accounts_of, keyed_account_of_meta, process_instruction, hdes,
        StakeOps.trivial_ok]
  · constructor <;>
      simp [withdraw, Instruction.new, metas_for_authorized_signer_eq, hta, has,
        keyed_accounts_of, keyed_account_of_meta, process_instruction, hdes,
        StakeOps.trivial_ok]

/-- Witness for the amended C3 with an explicit destination distinct from
the authorized withdrawer, which is the stake account's own key. -/
theorem claimC3_amended_witness :
    ¬((9 : Pubkey) = 5 ∧ (5 : Pubkey) = 5) ∧
    (4 ≤ (withdraw 5 5 9 7).accounts.length ∧
     process_instruction StakeOps.trivial_ok 0
       (keyed_accounts_of (withdraw 5 5 9 7)) (withdraw 5 5 9 7).data =
       (none, keyed_accounts_of (withdraw 5 5 9 7))) :=
  ⟨by decide, claimC3_amended 5 5 9 7 0 (by decide)⟩

end StakeApi
